import Mathlib

/-!
Shallow embedding of the bors event processor (src/bors/src/event_processor.rs)
and its repository configuration (src/bors/src/config.rs).

The actor state is `EventProcessor`; webhook payload types mirror the `github`
crate payloads as used by the handlers; outbound forge calls, git operations and
the merge-queue tick are recorded in an effect trace (`Effect`).  Results of
forge queries (review decisions, open pull requests, git merges) are supplied by
an environment record `Env`.  Collaborator code that is not part of the two
embedded source files (`state.rs`, `queue.rs`, `command.rs`, the project board)
is modelled from the specification; each such definition carries a doc comment
starting with `Modelled from the spec:`.
-/

/-- Repository coordinates `(owner, name)`; `owner` stands for the owner login.
Mirrors `state::Repo` as used by `RepoConfig` and the webhook repository filter. -/
structure Repo where
  owner : String
  name : String
deriving DecidableEq, Repr

/-- Terminal conclusion of a check run, from the spec data model (§3):
`conclusion ∈ {success, failure, neutral, cancelled, timed_out, action_required, skipped}`. -/
inductive Conclusion
  | success
  | failure
  | neutral
  | cancelled
  | timedOut
  | actionRequired
  | skipped
deriving DecidableEq, Repr

/-- Modelled from the spec: `BuildResult` (§3), `{check_name, url, conclusion}`,
attached to a PR's `Testing`/`Canary` status (state.rs is absent from src). -/
structure BuildResult where
  check_name : String
  url : String
  conclusion : Conclusion
deriving DecidableEq, Repr

/-- Modelled from the spec: the PR `status` field (§3), one of `InReview`,
`Queued(priority)`, `Testing{merge_oid, started_at, results}`,
`Canary{merge_oid, results}` (state.rs is absent from src). -/
inductive Status
  | inReview
  | queued (priority : Int)
  | testing (merge_oid : String) (started_at : Nat) (results : List BuildResult)
  | canary (merge_oid : String) (results : List BuildResult)
deriving DecidableEq, Repr

/-- Modelled from the spec: the `PullRequest` state record of the PR Table (§3)
(state.rs is absent from src). -/
structure PullRequestState where
  number : Nat
  title : String
  body : String
  author : String
  head_oid : String
  head_repo : Option Repo
  base_ref : String
  base_oid : String
  labels : List String
  approved : Bool
  is_draft : Bool
  maintainer_can_modify : Bool
  priority : Int
  squash : Bool
  status : Status
deriving DecidableEq, Repr

/-- Configuration of one required check run: `ChecksConfig { name }` (config.rs). -/
structure ChecksConfig where
  name : String
deriving DecidableEq, Repr

/-- Configuration of one required commit status: `StatusConfig { context }` (config.rs). -/
structure StatusConfig where
  context : String
deriving DecidableEq, Repr

/-- The three configurable label names with their defaults (config.rs `Labels`). -/
structure Labels where
  squash : Option String
  high_priority : Option String
  low_priority : Option String
deriving DecidableEq, Repr

/-- `Labels::squash()` (config.rs). -/
def Labels.squashName (l : Labels) : String :=
  l.squash.getD "bors-squash"

/-- `Labels::high_priority()` (config.rs). -/
def Labels.highPriorityName (l : Labels) : String :=
  l.high_priority.getD "bors-high-priority"

/-- `Labels::low_priority()` (config.rs). -/
def Labels.lowPriorityName (l : Labels) : String :=
  l.low_priority.getD "bors-low-priority"

/-- `Labels::all()` (config.rs): the three label names in order. -/
def Labels.all (l : Labels) : List String :=
  [l.squashName, l.highPriorityName, l.lowPriorityName]

/-- Per-repository configuration `RepoConfig` (config.rs).  The `checks` and
`status` maps are embedded as association lists keyed by the configuration
table key (the `_app` key the source iterates over). -/
structure RepoConfig where
  repo : Repo
  require_review : Bool
  maintainer_mode : Bool
  checks : List (String × ChecksConfig)
  status : List (String × StatusConfig)
  timeout_seconds : Option Nat
  labels : Labels
deriving DecidableEq, Repr

/-- `RepoConfig::owner()` (config.rs). -/
def RepoConfig.owner (c : RepoConfig) : String :=
  c.repo.owner

/-- `RepoConfig::name()` (config.rs). -/
def RepoConfig.name (c : RepoConfig) : String :=
  c.repo.name

/-- `RepoConfig::checks()` (config.rs): the names of the configured check runs
chained with the contexts of the configured statuses. -/
def RepoConfig.checksList (c : RepoConfig) : List String :=
  c.checks.map (fun kv => kv.2.name) ++ c.status.map (fun kv => kv.2.context)

/-- `RepoConfig::timeout()` (config.rs), in seconds:
`timeout_seconds.unwrap_or(60 * 60 * 2)`. -/
def RepoConfig.timeout (c : RepoConfig) : Nat :=
  c.timeout_seconds.getD (60 * 60 * 2)

/-- Modelled from the spec: the Merge Queue record (§3), "a small
currently-testing reference (PR number + deadline)" (queue.rs is absent from src). -/
structure MergeQueue where
  current : Option (Nat × Nat)
deriving DecidableEq, Repr

/-- `MergeQueue::new()` / `MergeQueue::reset()`: clear the in-flight reference
(queue.rs is absent from src; reset per §4.6 step 1). -/
def MergeQueue.reset : MergeQueue :=
  { current := none }

/-- Modelled from the spec: the optional project-board mirror (§1, out of scope
beyond its interface); only its presence matters to the embedded handlers. -/
structure ProjectBoard where
  board_id : String
deriving DecidableEq, Repr

/-- Modelled from the spec: a parsed operator command (§4.4 minimum set)
(command.rs is absent from src). -/
inductive Cmd
  | approve
  | unapprove
  | retry
  | tryCanary
  | priority (p : Int)
  | cancel
  | ping
  | help
deriving DecidableEq, Repr

/-- Reaction kinds; the processor only uses `Rocket` (`github::ReactionType`). -/
inductive ReactionType
  | rocket
deriving DecidableEq, Repr

/-- Observable actions of the processor: outbound forge calls, git pushes,
sleeps, the command-execution point, and the merge-queue tick invocation. -/
inductive Effect
  | addReaction (node_id : String) (kind : ReactionType)
  | createComment (owner name : String) (number : Nat) (body : String)
  | getReviewDecision (owner name : String) (number : Nat)
  | sleepMs (ms : Nat)
  | executeCmd (c : Cmd) (sender : String) (number : Nat)
  | createCard (number : Nat)
  | deleteCard (number : Nat)
  | tick
  | openPulls (owner name : String)
  | getLabel (owner name lab : String)
  | createLabel (owner name lab : String)
  | updateBranch (branch oid : String)
  | forcePush (oid : String)
deriving DecidableEq, Repr

/-- The PR Table: map from PR number to PR state (`HashMap<u64, PullRequestState>`),
embedded as an association list. -/
abbrev PullTable := List (Nat × PullRequestState)

/-- Lookup in the PR Table (`HashMap::get`): the first entry with the key. -/
def lookupPull : PullTable → Nat → Option PullRequestState
  | [], _ => none
  | e :: t, n => if e.1 == n then some e.2 else lookupPull t n

/-- Insert into the PR Table, replacing an existing entry (`HashMap::insert`). -/
def insertPull (t : PullTable) (n : Nat) (pr : PullRequestState) : PullTable :=
  if t.any (fun e => e.1 == n) then
    t.map (fun e => if e.1 == n then (e.1, pr) else e)
  else
    t ++ [(n, pr)]

/-- Remove from the PR Table (`HashMap::remove`). -/
def removePull (t : PullTable) (n : Nat) : PullTable :=
  t.filter (fun e => !(e.1 == n))

/-- Update the entry for key `n` in place (`HashMap::get_mut` followed by mutation). -/
def modifyPull (t : PullTable) (n : Nat) (f : PullRequestState → PullRequestState) : PullTable :=
  t.map (fun e => if e.1 == n then (e.1, f e.2) else e)

/-- Whether a status is `Testing`. -/
def statusIsTesting : Status → Bool
  | .testing _ _ _ => true
  | _ => false

/-- Number of PRs in the table whose status is `Testing` (spec invariant §8.1). -/
def countTesting (t : PullTable) : Nat :=
  t.countP (fun e => statusIsTesting e.2.status)

/-- A branch reference in a PR payload (`github` crate): ref name, head sha,
and the repository the branch lives in. -/
structure Branch where
  git_ref : String
  sha : String
  repo : Option Repo
deriving DecidableEq, Repr

/-- The `github::PullRequest` webhook payload fields consumed by the handlers. -/
structure PullRequest where
  number : Nat
  title : String
  body : Option String
  author : String
  head : Branch
  base : Branch
  merged : Option Bool
  maintainer_can_modify : Option Bool
  draft : Option Bool
deriving DecidableEq, Repr

/-- `github::PullRequestEventAction` arms matched by the handler. -/
inductive PullRequestEventAction
  | synchronize
  | opened
  | reopened
  | closed
  | labeled
  | unlabeled
  | convertedToDraft
  | readyForReview
  | edited
  | otherAction
deriving DecidableEq, Repr

/-- A label payload (`github::Label`): only the name is consumed. -/
structure Label where
  name : String
deriving DecidableEq, Repr

/-- `github::PullRequestEvent` payload. -/
structure PullRequestEvent where
  action : PullRequestEventAction
  pull_request : PullRequest
  label : Option Label
  repository : Repo
deriving DecidableEq, Repr

/-- `github::CheckStatus` of a check run. -/
inductive CheckStatus
  | queued
  | inProgress
  | completed
deriving DecidableEq, Repr

/-- `github::CheckRunEventAction` arms. -/
inductive CheckRunEventAction
  | created
  | completed
  | otherAction
deriving DecidableEq, Repr

/-- The `github::CheckRun` payload fields consumed by the handler. -/
structure CheckRun where
  name : String
  head_sha : String
  details_url : String
  status : CheckStatus
  conclusion : Option Conclusion
deriving DecidableEq, Repr

/-- `github::CheckRunEvent` payload. -/
structure CheckRunEvent where
  action : CheckRunEventAction
  check_run : CheckRun
  repository : Repo
deriving DecidableEq, Repr

/-- `github::StatusEventState`: state of a commit status event. -/
inductive StatusEventState
  | pending
  | success
  | failure
  | error
deriving DecidableEq, Repr

/-- `github::StatusEvent` payload fields consumed by the handler. -/
structure StatusEvent where
  state : StatusEventState
  sha : String
  context : String
  target_url : Option String
  repository : Repo
deriving DecidableEq, Repr

/-- A user payload (`github::User`): only the login is consumed. -/
structure User where
  login : String
deriving DecidableEq, Repr

/-- A comment payload (`github` crate): body and GraphQL node id. -/
structure Comment where
  body : Option String
  node_id : String
deriving DecidableEq, Repr

/-- Whether a comment-like event action is `created` (`action.is_created()`). -/
inductive CommentAction
  | created
  | otherAction
deriving DecidableEq, Repr

/-- `CommentAction` test mirroring `is_created()`. -/
def CommentAction.isCreated : CommentAction → Bool
  | .created => true
  | .otherAction => false

/-- The issue payload of an issue-comment event: number and whether the issue
is a pull request (`issue.is_pull_request()`). -/
structure Issue where
  number : Nat
  is_pull_request : Bool
deriving DecidableEq, Repr

/-- `github::IssueCommentEvent` payload. -/
structure IssueCommentEvent where
  action : CommentAction
  issue : Issue
  comment : Comment
  sender : User
  repository : Repo
deriving DecidableEq, Repr

/-- `github::ReviewState` of a submitted review. -/
inductive ReviewState
  | approved
  | changesRequested
  | dismissed
  | commented
deriving DecidableEq, Repr

/-- A review payload (`github::Review`): state, body and node id. -/
structure Review where
  state : ReviewState
  body : Option String
  node_id : String
deriving DecidableEq, Repr

/-- Whether a review event action is `submitted` (`action.is_submitted()`). -/
inductive ReviewAction
  | submitted
  | otherAction
deriving DecidableEq, Repr

/-- `ReviewAction` test mirroring `is_submitted()`. -/
def ReviewAction.isSubmitted : ReviewAction → Bool
  | .submitted => true
  | .otherAction => false

/-- `github::PullRequestReviewEvent` payload. -/
structure PullRequestReviewEvent where
  action : ReviewAction
  pull_request : PullRequest
  review : Review
  sender : User
  repository : Repo
deriving DecidableEq, Repr

/-- `github::PullRequestReviewCommentEvent` payload. -/
structure PullRequestReviewCommentEvent where
  action : CommentAction
  pull_request : PullRequest
  comment : Comment
  sender : User
  repository : Repo
deriving DecidableEq, Repr

/-- `github::Event`: the webhook event kinds dispatched by `handle_webhook`.
`unsupported` stands for every event kind the processor ignores; it carries the
payload repository coordinates when the payload has them. -/
inductive Event
  | pullRequest (e : PullRequestEvent)
  | checkRun (e : CheckRunEvent)
  | status (e : StatusEvent)
  | issueComment (e : IssueCommentEvent)
  | pullRequestReview (e : PullRequestReviewEvent)
  | pullRequestReviewComment (e : PullRequestReviewCommentEvent)
  | unsupported (repository : Option Repo)
deriving DecidableEq, Repr

/-- `Event::repository()`: the repository coordinates carried by the payload. -/
def Event.repository : Event → Option Repo
  | .pullRequest e => some e.repository
  | .checkRun e => some e.repository
  | .status e => some e.repository
  | .issueComment e => some e.repository
  | .pullRequestReview e => some e.repository
  | .pullRequestReviewComment e => some e.repository
  | .unsupported r => r

/-- The three request kinds of the actor Inbox (`Request`); `getState` stands
for `GetState(oneshot::Sender<..>)`, the snapshot reply channel is not embedded. -/
inductive Request
  | webhook (event : Event) (delivery_id : String)
  | getState
  | synchronize
deriving Repr

/-- Environment supplying the results of collaborator calls during the handling
of one request: forge query answers, git merge results, the wall clock, the
comment-command parser and the command authorization predicate.  The parser
field stands for `Command::from_comment` composed with
`Command::from_comment_with_username` (command.rs is absent from src); `none`
is no command, `.error` a malformed command. -/
structure Env where
  reviewDecision : Nat → Bool
  openPullsResult : Except Unit (List PullRequest)
  mergeOid : Nat → Option String
  now : Nat
  parse : String → Option (Except Unit Cmd)
  authorized : Cmd → String → Nat → Bool
  labelExists : String → Bool
  boardInit : ProjectBoard

/-- The actor state owned by one `EventProcessor` (event_processor.rs):
configuration, merge queue, optional project board, and the PR Table.  The
`github`, `git_repository` and `requests_rx` handles are not state; their
behaviour is supplied by `Env` and the request list. -/
structure EventProcessor where
  config : RepoConfig
  merge_queue : MergeQueue
  project_board : Option ProjectBoard
  pulls : PullTable
deriving Repr

/-- Modelled from the spec: `PullRequestState::from_pull_request` (state.rs is
absent from src); §4.6 step 2 — reconstruct a record from the payload with
default `status = InReview`, `approved = false`, priority 0. -/
def from_pull_request (pr : PullRequest) : PullRequestState :=
  { number := pr.number
    title := pr.title
    body := pr.body.getD ""
    author := pr.author
    head_oid := pr.head.sha
    head_repo := pr.head.repo
    base_ref := pr.base.git_ref
    base_oid := pr.base.sha
    labels := []
    approved := false
    is_draft := pr.draft.getD false
    maintainer_can_modify := pr.maintainer_can_modify.getD false
    priority := 0
    squash := false
    status := .inReview }

/-- Demotion of a queue member back to review, used by head/base updates:
§4.2 "A head change on a `Queued` or `Testing` PR demotes it to `InReview`". -/
def demoteQueuedOrTesting : Status → Status
  | .queued _ => .inReview
  | .testing _ _ _ => .inReview
  | st => st

/-- Modelled from the spec: `PullRequestState::update_head` (state.rs is absent
from src); §4.2 `synchronize` — update `head_oid`, demoting a `Queued` or
`Testing` PR to `InReview`. -/
def update_head (pr : PullRequestState) (sha : String) : PullRequestState :=
  { pr with head_oid := sha, status := demoteQueuedOrTesting pr.status }

/-- Modelled from the spec: `PullRequestState::update_base_ref` (state.rs is
absent from src); §4.2 `edited` — update the base, a base-ref change demotes
the status to `InReview`. -/
def update_base_ref (pr : PullRequestState) (base_ref base_sha : String) : PullRequestState :=
  if base_ref == pr.base_ref then
    { pr with base_oid := base_sha }
  else
    { pr with base_ref := base_ref, base_oid := base_sha,
              status := demoteQueuedOrTesting pr.status }

/-- Modelled from the spec: `PullRequestState::add_build_result` (state.rs is
absent from src); §4.2 — append the `BuildResult` to the `Testing`/`Canary`
results. -/
def add_build_result (pr : PullRequestState) (check_name url : String)
    (conclusion : Conclusion) : PullRequestState :=
  match pr.status with
  | .testing oid started results =>
      { pr with status := .testing oid started (results ++ [⟨check_name, url, conclusion⟩]) }
  | .canary oid results =>
      { pr with status := .canary oid (results ++ [⟨check_name, url, conclusion⟩]) }
  | _ => pr

/-- Eligibility of a PR for testing, modelled from the spec (§4.3): approved
(or review not required) and not a draft.  The config embedded here has no
do-not-merge label list, and mergeability is discovered at merge time. -/
def eligible (cfg : RepoConfig) (pr : PullRequestState) : Bool :=
  (pr.approved || !cfg.require_review) && !pr.is_draft

/-- The advisory comment posted on fork PRs without maintainer edits
(event_processor.rs, `Opened`/`Reopened` arm; text abridged). -/
def maintainerAdvisoryMsg : String :=
  ":exclamation: before this PR can be merged please make sure that you enable \"Allow edits from maintainers\""

/-- The comment posted when a command arrives for a PR that is not in the
table (event_processor.rs, `CommandContext::active_pull_request_context`). -/
def closedPrMsg (sender : String) : String :=
  "@" ++ sender ++ " :exclamation: Unable to run the provided command on a closed PR"

/-- Modelled from the spec: `Command::help` (command.rs is absent from src). -/
def commandHelp : String :=
  "bors commands: r+, r-, retry, try, p=<int>, cancel, ping, help"

/-- The reply posted on a malformed command (event_processor.rs,
`process_comment`, `Some(Err(_))` arm). -/
def invalidCommandMsg : String :=
  ":exclamation: Invalid command\n\n" ++ commandHelp

/-- Modelled from the spec: `Command::execute` (command.rs is absent from src);
§4.4 command table.  Commands act on the PR Table entry of the PR the comment
was made on; a command on a PR absent from the table only posts the closed-PR
comment (`active_pull_request_context`).  No command arm sets `Testing`:
testing is entered only by the merge-queue tick (§4.3). -/
def Cmd.execute (c : Cmd) (env : Env) (cfg : RepoConfig) (sender : String) (n : Nat)
    (t : PullTable) : PullTable × List Effect :=
  match lookupPull t n with
  | none => (t, [.createComment cfg.owner cfg.name n (closedPrMsg sender)])
  | some _ =>
    match c with
    | .approve =>
        (modifyPull t n (fun q =>
          let q1 := { q with approved := true }
          if eligible cfg q1 && q1.status == .inReview then
            { q1 with status := .queued q1.priority }
          else q1), [])
    | .unapprove =>
        (modifyPull t n (fun q =>
          { q with approved := false, status := demoteQueuedOrTesting q.status }), [])
    | .retry =>
        (modifyPull t n (fun q =>
          if q.status == .inReview then { q with status := .queued q.priority } else q), [])
    | .tryCanary =>
        match env.mergeOid n with
        | some oid =>
            (modifyPull t n (fun q => { q with status := .canary oid [] }),
             [.forcePush oid,
              .createComment cfg.owner cfg.name n ("Canary Testing " ++ oid)])
        | none =>
            (modifyPull t n (fun q => { q with status := .inReview }),
             [.createComment cfg.owner cfg.name n "merge conflict"])
    | .priority p =>
        (modifyPull t n (fun q => { q with priority := p }), [])
    | .cancel =>
        (modifyPull t n (fun q =>
          match q.status with
          | .testing _ _ _ => { q with status := .inReview }
          | .canary _ _ => { q with status := .inReview }
          | _ => q), [])
    | .ping =>
        (t, [.createComment cfg.owner cfg.name n ":wave: pong"])
    | .help =>
        (t, [.createComment cfg.owner cfg.name n commandHelp])

/-- `EventProcessor::process_comment` (event_processor.rs): parse the comment;
a valid command gets a Rocket reaction, then is executed when the sender is
authorized; a malformed command gets the help reply; no command does nothing.
The `Effect.executeCmd` marker records that `Command::execute` was invoked. -/
def process_comment (env : Env) (s : EventProcessor) (user : String) (pr_number : Nat)
    (comment : Option String) (node_id : String) : EventProcessor × List Effect :=
  match comment.bind env.parse with
  | some (.ok command) =>
      if env.authorized command user pr_number then
        let r := Cmd.execute command env s.config user pr_number s.pulls
        ({ s with pulls := r.1 },
         .addReaction node_id .rocket :: .executeCmd command user pr_number :: r.2)
      else
        (s, [.addReaction node_id .rocket])
  | some (.error _) =>
      (s, [.createComment s.config.owner s.config.name pr_number invalidCommandMsg])
  | none => (s, [])

/-- `EventProcessor::handle_pull_request_event` (event_processor.rs). -/
def handle_pull_request_event (s : EventProcessor) (event : PullRequestEvent) :
    EventProcessor × List Effect :=
  match event.action with
  | .synchronize =>
      ({ s with pulls := (modifyPull s.pulls event.pull_request.number
                  (fun pr => update_head pr event.pull_request.head.sha)) }, [])
  | .opened | .reopened =>
      let state := from_pull_request event.pull_request
      let pr_is_from_base_repo :=
        (state.head_repo.map (fun repo => s.config.repo == repo)).getD false
      let advisoryFx : List Effect :=
        if s.config.maintainer_mode && !state.maintainer_can_modify && !pr_is_from_base_repo then
          [.createComment s.config.owner s.config.name state.number maintainerAdvisoryMsg]
        else []
      let boardFx : List Effect :=
        match s.project_board with
        | some _ => [.createCard state.number]
        | none => []
      ({ s with pulls := insertPull s.pulls state.number state }, advisoryFx ++ boardFx)
  | .closed =>
      match lookupPull s.pulls event.pull_request.number with
      | some _ =>
          let boardFx : List Effect :=
            match s.project_board with
            | some _ => [.deleteCard event.pull_request.number]
            | none => []
          ({ s with pulls := removePull s.pulls event.pull_request.number }, boardFx)
      | none => (s, [])
  | .labeled =>
      match event.label with
      | some label =>
          ({ s with pulls := (modifyPull s.pulls event.pull_request.number
              (fun pr => { pr with labels :=
                  if pr.labels.contains label.name then pr.labels
                  else pr.labels ++ [label.name] })) }, [])
      | none => (s, [])
  | .unlabeled =>
      match event.label with
      | some label =>
          ({ s with pulls := (modifyPull s.pulls event.pull_request.number
              (fun pr => { pr with labels := pr.labels.filter (fun l => !(l == label.name)) })) },
           [])
      | none => (s, [])
  | .convertedToDraft =>
      ({ s with pulls := (modifyPull s.pulls event.pull_request.number
          (fun pr => { pr with is_draft := true })) }, [])
  | .readyForReview =>
      ({ s with pulls := (modifyPull s.pulls event.pull_request.number
          (fun pr => { pr with is_draft := false })) }, [])
  | .edited =>
      ({ s with pulls := (modifyPull s.pulls event.pull_request.number
          (fun pr =>
            let pr1 := if event.pull_request.title == pr.title then pr
                       else { pr with title := event.pull_request.title }
            let newBody := event.pull_request.body.getD ""
            let pr2 := if newBody == pr1.body then pr1 else { pr1 with body := newBody }
            let pr3 := update_base_ref pr2 event.pull_request.base.git_ref
                         event.pull_request.base.sha
            match event.pull_request.maintainer_can_modify with
            | some m => { pr3 with maintainer_can_modify := m }
            | none => pr3)) }, [])
  | .otherAction => (s, [])

/-- `EventProcessor::pull_from_merge_oid` (event_processor.rs): the position of
the first PR whose `Testing` or `Canary` `merge_oid` equals `oid`. -/
def matchesOid (pr : PullRequestState) (oid : String) : Bool :=
  match pr.status with
  | .testing merge_oid _ _ => merge_oid == oid
  | .canary merge_oid _ => merge_oid == oid
  | .inReview => false
  | .queued _ => false

/-- Position of the first element satisfying `p`. -/
def firstIdx (p : α → Bool) : List α → Option Nat
  | [] => none
  | a :: l => if p a then some 0 else (firstIdx p l).map (fun i => i + 1)

/-- Position form of `pull_from_merge_oid`. -/
def pull_from_merge_oid (t : PullTable) (oid : String) : Option Nat :=
  firstIdx (fun e => matchesOid e.2 oid) t

/-- Apply `add_build_result` to the PR located by `pull_from_merge_oid`. -/
def applyBuildResult (t : PullTable) (oid check_name url : String)
    (conclusion : Conclusion) : PullTable :=
  match pull_from_merge_oid t oid with
  | some i =>
      match t.get? i with
      | some e => t.set i (e.1, add_build_result e.2 check_name url conclusion)
      | none => t
  | none => t

/-- `EventProcessor::handle_check_run_event` (event_processor.rs): skip unless
`action = Completed`, `status = Completed` and a conclusion is present; then
attach the result to the PR whose merge oid equals the check's head sha. -/
def handle_check_run_event (s : EventProcessor) (event : CheckRunEvent) : EventProcessor :=
  match event.action, event.check_run.status, event.check_run.conclusion with
  | .completed, .completed, some conclusion =>
      { s with pulls := (applyBuildResult s.pulls event.check_run.head_sha
          event.check_run.name event.check_run.details_url conclusion) }
  | _, _, _ => s

/-- The conclusion a status event is shoehorned into (event_processor.rs,
`handle_status_event`): pending is skipped, success maps to success, failure
and error map to failure. -/
def statusConclusion : StatusEventState → Option Conclusion
  | .pending => none
  | .success => some .success
  | .failure => some .failure
  | .error => some .failure

/-- `EventProcessor::handle_status_event` (event_processor.rs). -/
def handle_status_event (s : EventProcessor) (event : StatusEvent) : EventProcessor :=
  match statusConclusion event.state with
  | none => s
  | some conclusion =>
      { s with pulls := (applyBuildResult s.pulls event.sha
          event.context (event.target_url.getD "") conclusion) }

/-- The race-reconciliation guard (event_processor.rs,
`handle_pull_request_review_event`): re-query when the cached approval and the
queried one are both true and the review is Dismissed or ChangesRequested, or
both false and the review is Approved. -/
def raceCheck (cached queried : Bool) : ReviewState → Bool
  | .dismissed => cached && queried
  | .changesRequested => cached && queried
  | .approved => !cached && !queried
  | .commented => false

/-- The review-decision block of `handle_pull_request_review_event`
(event_processor.rs lines 457–499): query the forge for the review decision;
on the race pattern sleep 300 ms and query a second time; store the adopted
answer in `pr.approved`.  A PR absent from the table is left alone. -/
def review_reconcile (env : Env) (cfg : RepoConfig) (pulls : PullTable)
    (pr_number : Nat) (review_state : ReviewState) : PullTable × List Effect :=
  match lookupPull pulls pr_number with
  | none => (pulls, [])
  | some pr =>
      let approved0 := env.reviewDecision 0
      if raceCheck pr.approved approved0 review_state then
        (modifyPull pulls pr_number (fun q => { q with approved := env.reviewDecision 1 }),
         [.getReviewDecision cfg.owner cfg.name pr_number,
          .sleepMs 300,
          .getReviewDecision cfg.owner cfg.name pr_number])
      else
        (modifyPull pulls pr_number (fun q => { q with approved := approved0 }),
         [.getReviewDecision cfg.owner cfg.name pr_number])

/-- `EventProcessor::handle_pull_request_review_event` (event_processor.rs):
reconcile the review decision, then feed a submitted review body to the
command handler. -/
def handle_pull_request_review_event (env : Env) (s : EventProcessor)
    (e : PullRequestReviewEvent) : EventProcessor × List Effect :=
  let r := review_reconcile env s.config s.pulls e.pull_request.number e.review.state
  let s1 := { s with pulls := r.1 }
  let r2 :=
    if e.action.isSubmitted then
      process_comment env s1 e.sender.login e.pull_request.number e.review.body e.review.node_id
    else (s1, [])
  (r2.1, r.2 ++ r2.2)

/-- The most recent `BuildResult` for a required check name (§4.3 step 1);
results are appended in arrival order, so the most recent is the last. -/
def recentResult (results : List BuildResult) (check_name : String) : Option BuildResult :=
  results.reverse.find? (fun b => b.check_name == check_name)

/-- Whether some required check reported a non-success terminal conclusion
(§4.3 step 1, failure branch). -/
def someCheckFailed (cfg : RepoConfig) (results : List BuildResult) : Bool :=
  cfg.checksList.any (fun r =>
    match recentResult results r with
    | some b => !(b.conclusion == .success)
    | none => false)

/-- Whether every required check reported success (§4.3 step 1, merge branch). -/
def allChecksGreen (cfg : RepoConfig) (results : List BuildResult) : Bool :=
  cfg.checksList.all (fun r =>
    match recentResult results r with
    | some b => b.conclusion == .success
    | none => false)

/-- Replace the status of a table entry, keeping every other field. -/
def setStatus (e : Nat × PullRequestState) (st : Status) : Nat × PullRequestState :=
  (e.1, { e.2 with status := st })

/-- Modelled from the spec: step 3 of `MergeQueue::process_queue` (queue.rs is
absent from src); §4.3 — walk the candidate positions in priority order; a
successful speculative merge sets exactly one PR to `Testing` and records the
in-flight reference; a conflict demotes the candidate to `InReview`, comments,
and moves on to the next candidate. -/
def selectLoop (env : Env) (cfg : RepoConfig) (pulls : PullTable) :
    List Nat → MergeQueue × PullTable × List Effect
  | [] => ({ current := none }, pulls, [])
  | i :: rest =>
    match pulls.get? i with
    | some e =>
        match env.mergeOid e.1 with
        | some oid =>
            ({ current := some (e.1, env.now + cfg.timeout) },
             pulls.set i (setStatus e (.testing oid env.now [])),
             [.forcePush oid,
              .createComment cfg.owner cfg.name e.1 ("Testing " ++ oid)])
        | none =>
            let pulls1 := pulls.set i (setStatus e .inReview)
            let r := selectLoop env cfg pulls1 rest
            (r.1, r.2.1,
             .createComment cfg.owner cfg.name e.1 "merge conflict" :: r.2.2)
    | none => selectLoop env cfg pulls rest

/-- Insertion into a position list sorted by descending priority. -/
def insertByPrio (x : Nat × Int) : List (Nat × Int) → List (Nat × Int)
  | [] => [x]
  | y :: ys => if y.2 < x.2 then x :: y :: ys else y :: insertByPrio x ys

/-- Positions of the eligible `Queued` PRs, ordered by descending priority
(§4.3 step 3). -/
def candidatePositions (cfg : RepoConfig) (pulls : PullTable) : List Nat :=
  let withPrio := (List.range pulls.length).filterMap (fun i =>
    match pulls.get? i with
    | some e =>
        match e.2.status with
        | .queued p => if eligible cfg e.2 then some (i, p) else none
        | _ => none
    | none => none)
  (withPrio.foldr insertByPrio []).map (fun x => x.1)

/-- Candidate selection entry point (§4.3 step 3). -/
def selectNext (env : Env) (cfg : RepoConfig) (pulls : PullTable) :
    MergeQueue × PullTable × List Effect :=
  selectLoop env cfg pulls (candidatePositions cfg pulls)

/-- Modelled from the spec: `MergeQueue::process_queue` (queue.rs is absent from
src); §4.3 — evaluate the in-flight `Testing` candidate: a failed required
check or a timeout demotes it to `InReview` with a comment, all checks green
fast-forwards the base branch and drops the PR from the table; in each of those
cases the next candidate is selected; a still-running candidate returns
unchanged. -/
def tickQueue (env : Env) (cfg : RepoConfig) (mq : MergeQueue) (pulls : PullTable) :
    MergeQueue × PullTable × List Effect :=
  match firstIdx (fun e => statusIsTesting e.2.status) pulls with
  | some i =>
    match pulls.get? i with
    | some e =>
      match e.2.status with
      | .testing oid started results =>
          if someCheckFailed cfg results then
            let r := selectNext env cfg (pulls.set i (setStatus e .inReview))
            (r.1, r.2.1,
             .createComment cfg.owner cfg.name e.1 "Test failed" :: r.2.2)
          else if allChecksGreen cfg results then
            let r := selectNext env cfg (pulls.eraseIdx i)
            (r.1, r.2.1, .updateBranch e.2.base_ref oid :: r.2.2)
          else if cfg.timeout < env.now - started then
            let r := selectNext env cfg (pulls.set i (setStatus e .inReview))
            (r.1, r.2.1,
             .createComment cfg.owner cfg.name e.1 "Test timed out" :: r.2.2)
          else (mq, pulls, [])
      | _ => (mq, pulls, [])
    | none => (mq, pulls, [])
  | none => selectNext env cfg pulls

/-- `EventProcessor::process_merge_queue` (event_processor.rs): run the queue
over the actor's config, merge queue and PR table. -/
def process_merge_queue (env : Env) (s : EventProcessor) : EventProcessor × List Effect :=
  let r := tickQueue env s.config s.merge_queue s.pulls
  ({ s with merge_queue := r.1, pulls := r.2.1 }, r.2.2)

/-- The repository filter of `handle_webhook` (event_processor.rs lines
127–134): the event's repository coordinates must equal the configured
`(owner, name)`. -/
def repoMatches (cfg : RepoConfig) (event : Event) : Bool :=
  (event.repository.map (fun r => r.owner == cfg.owner && r.name == cfg.name)).getD false

/-- The per-event-kind dispatch of `handle_webhook` (event_processor.rs lines
144–174): route the event to its handler; comment-like events are fed to the
command handler only for `created` actions on pull requests. -/
def dispatch_event (env : Env) (s : EventProcessor) (event : Event) :
    EventProcessor × List Effect :=
  match event with
  | .pullRequest e => handle_pull_request_event s e
  | .checkRun e => (handle_check_run_event s e, [])
  | .status e => (handle_status_event s e, [])
  | .issueComment e =>
      if e.action.isCreated && e.issue.is_pull_request then
        process_comment env s e.sender.login e.issue.number e.comment.body e.comment.node_id
      else (s, [])
  | .pullRequestReview e => handle_pull_request_review_event env s e
  | .pullRequestReviewComment e =>
      if e.action.isCreated then
        process_comment env s e.sender.login e.pull_request.number e.comment.body
          e.comment.node_id
      else (s, [])
  | .unsupported _ => (s, [])

/-- `EventProcessor::handle_webhook` (event_processor.rs): drop events for
other repositories; dispatch on the event kind; then invoke
`process_merge_queue` once (recorded as `Effect.tick`). -/
def handle_webhook (env : Env) (s : EventProcessor) (event : Event)
    (delivery_id : String) : EventProcessor × List Effect :=
  if !repoMatches s.config event then (s, [])
  else
    let r1 := dispatch_event env s event
    let r2 := process_merge_queue env r1.1
    (r2.1, r1.2 ++ Effect.tick :: r2.2)

/-- The label-bootstrap effects of `synchronize` (event_processor.rs lines
539–554): look up each configured label, creating the missing ones. -/
def labelEffects (env : Env) (cfg : RepoConfig) : List Effect :=
  cfg.labels.all.foldr (fun lab fx =>
    .getLabel cfg.owner cfg.name lab ::
      (if env.labelExists lab then fx else .createLabel cfg.owner cfg.name lab :: fx)) []

/-- `EventProcessor::synchronize` (event_processor.rs): fetch the open PRs
(failure aborts with the state untouched), rebuild the PR Table from them,
reset the merge queue, refresh the project board and ensure the configured
labels exist.  The board refresh is modelled from the spec (§4.6 step 4,
project_board.rs is absent from src). -/
def synchronize (env : Env) (s : EventProcessor) :
    Except Unit (EventProcessor × List Effect) :=
  match env.openPullsResult with
  | .error e => .error e
  | .ok prs =>
      .ok ({ s with
              pulls := prs.foldl (fun t pr => insertPull t pr.number (from_pull_request pr)) []
              merge_queue := MergeQueue.reset
              project_board := some env.boardInit },
           .openPulls s.config.owner s.config.name :: labelEffects env s.config)

/-- `EventProcessor::handle_request` (event_processor.rs): a webhook is
dispatched, a state snapshot only replies with a copy, a synchronize request
runs `synchronize`. -/
def handle_request (env : Env) (s : EventProcessor) (req : Request) :
    Except Unit (EventProcessor × List Effect) :=
  match req with
  | .webhook event delivery_id => .ok (handle_webhook env s event delivery_id)
  | .getState => .ok (s, [])
  | .synchronize => synchronize env s

/-- The actor state after one request: a failed request leaves the state as the
partial mutations of the failing handler left it, which in this embedding is
the pre-request state (the only failure point, `open_pulls`, precedes every
mutation of `synchronize`). -/
def handle_request_state (env : Env) (s : EventProcessor) (req : Request) : EventProcessor :=
  match handle_request env s req with
  | .ok r => r.1
  | .error _ => s

/-- The consuming loop of `EventProcessor::start` (event_processor.rs lines
98–102): handle each request in arrival order; an error is logged and the loop
moves to the next request. -/
def runLoop (envs : Nat → Env) (s : EventProcessor) :
    List Request → EventProcessor × List Effect
  | [] => (s, [])
  | req :: reqs =>
    match handle_request (envs 0) s req with
    | .ok r =>
        let rest := runLoop (fun i => envs (i + 1)) r.1 reqs
        (rest.1, r.2 ++ rest.2)
    | .error _ => runLoop (fun i => envs (i + 1)) s reqs

/-- `EventProcessor::start` (event_processor.rs): the initial synchronization
is mandatory (`expect`), its failure terminates the actor (`none`); afterwards
the loop consumes the inbox. -/
def start (envInit : Env) (envs : Nat → Env) (s : EventProcessor)
    (reqs : List Request) : Option (EventProcessor × List Effect) :=
  match synchronize envInit s with
  | .error _ => none
  | .ok r =>
      let rest := runLoop envs r.1 reqs
      some (rest.1, r.2 ++ rest.2)

theorem countP_set_le {α : Type} (p : α → Bool) (l : List α) (i : Nat) (x : α) :
    (l.set i x).countP p ≤ l.countP p + 1 := by
  induction l generalizing i with
  | nil => simp
  | cons a l ih =>
    cases i with
    | zero =>
        simp only [List.set, List.countP_cons]
        split <;> split <;> omega
    | succ i =>
        simp only [List.set, List.countP_cons]
        have := ih i
        split <;> omega

theorem countP_set_of_neg {α : Type} (p : α → Bool) (l : List α) (i : Nat) (x : α)
    (hx : p x = false) : (l.set i x).countP p ≤ l.countP p := by
  induction l generalizing i with
  | nil => simp
  | cons a l ih =>
    cases i with
    | zero =>
        simp only [List.set, List.countP_cons, hx, Bool.false_eq_true, if_false]
        split <;> omega
    | succ i =>
        simp only [List.set, List.countP_cons]
        have := ih i
        split <;> omega

theorem countP_set_elim {α : Type} (p : α → Bool) (l : List α) (i : Nat) (x a : α)
    (hget : l.get? i = some a) (ha : p a = true) (hx : p x = false) :
    (l.set i x).countP p + 1 = l.countP p := by
  induction l generalizing i with
  | nil => simp at hget
  | cons b l ih =>
    cases i with
    | zero =>
        simp only [List.get?] at hget
        cases hget
        simp [List.set, List.countP_cons, ha, hx]
    | succ i =>
        simp only [List.get?] at hget
        simp only [List.set, List.countP_cons]
        have := ih i hget
        split <;> omega

theorem countP_eraseIdx_elim {α : Type} (p : α → Bool) (l : List α) (i : Nat) (a : α)
    (hget : l.get? i = some a) (ha : p a = true) :
    (l.eraseIdx i).countP p + 1 = l.countP p := by
  induction l generalizing i with
  | nil => simp at hget
  | cons b l ih =>
    cases i with
    | zero =>
        simp only [List.get?] at hget
        cases hget
        simp [List.eraseIdx, List.countP_cons, ha]
    | succ i =>
        simp only [List.get?] at hget
        simp only [List.eraseIdx, List.countP_cons]
        have := ih i hget
        split <;> omega

theorem countP_set_eq_of {α : Type} (p : α → Bool) (l : List α) (i : Nat) (x a : α)
    (hget : l.get? i = some a) (hpa : p x = p a) :
    (l.set i x).countP p = l.countP p := by
  induction l generalizing i with
  | nil => simp at hget
  | cons b l ih =>
    cases i with
    | zero =>
        simp only [List.get?] at hget
        cases hget
        simp only [List.set, List.countP_cons, hpa]
    | succ i =>
        simp only [List.get?] at hget
        simp only [List.set, List.countP_cons]
        have := ih i hget
        omega

theorem firstIdx_none_countP {α : Type} (p : α → Bool) (l : List α)
    (h : firstIdx p l = none) : l.countP p = 0 := by
  induction l with
  | nil => simp
  | cons a l ih =>
    simp only [firstIdx] at h
    by_cases hp : p a = true
    · simp [hp] at h
    · rw [if_neg (by simp [hp])] at h
      have hl : firstIdx p l = none := by
        cases hfi : firstIdx p l with
        | none => rfl
        | some i => rw [hfi] at h; simp at h
      simp only [Bool.not_eq_true] at hp
      simp [List.countP_cons, hp, ih hl]

theorem firstIdx_some_get {α : Type} (p : α → Bool) (l : List α) (i : Nat)
    (h : firstIdx p l = some i) : ∃ a, l.get? i = some a ∧ p a = true := by
  induction l generalizing i with
  | nil => simp [firstIdx] at h
  | cons a l ih =>
    simp only [firstIdx] at h
    by_cases hp : p a = true
    · rw [if_pos hp] at h
      cases h
      exact ⟨a, rfl, hp⟩
    · rw [if_neg hp] at h
      cases hfi : firstIdx p l with
      | none => rw [hfi] at h; simp at h
      | some j =>
          rw [hfi] at h
          simp only [Option.map_some'] at h
          cases h
          obtain ⟨b, hb, hpb⟩ := ih j hfi
          exact ⟨b, hb, hpb⟩

theorem countP_ge_one_of_get {α : Type} (p : α → Bool) (l : List α) (i : Nat) (a : α)
    (hget : l.get? i = some a) (ha : p a = true) : 1 ≤ l.countP p := by
  induction l generalizing i with
  | nil => simp at hget
  | cons b l ih =>
    cases i with
    | zero =>
        simp only [List.get?] at hget
        cases hget
        simp [List.countP_cons, ha]
    | succ i =>
        simp only [List.get?] at hget
        have := ih i hget
        simp only [List.countP_cons]
        omega

theorem countP_map_mono {α : Type} (p : α → Bool) (g : α → α) (l : List α)
    (h : ∀ a, p (g a) = true → p a = true) : (l.map g).countP p ≤ l.countP p := by
  rw [List.countP_map]
  apply List.countP_mono_left
  intro a _ hpa
  exact h a hpa

theorem countP_filter_le {α : Type} (p q : α → Bool) (l : List α) :
    (l.filter q).countP p ≤ l.countP p := by
  induction l with
  | nil => simp
  | cons a l ih =>
    simp only [List.filter, List.countP_cons]
    split
    · simp only [List.countP_cons]
      split <;> omega
    · split <;> omega

theorem get?_set_self {α : Type} (l : List α) (i : Nat) (x a : α)
    (hget : l.get? i = some a) : (l.set i x).get? i = some x := by
  induction l generalizing i with
  | nil => simp at hget
  | cons b l ih =>
    cases i with
    | zero => rfl
    | succ i =>
        simp only [List.get?] at hget
        simpa [List.set, List.get?] using ih i hget

theorem get?_set_of_ne {α : Type} (l : List α) (i j : Nat) (x : α)
    (h : i ≠ j) : (l.set i x).get? j = l.get? j := by
  induction l generalizing i j with
  | nil => simp
  | cons b l ih =>
    cases i with
    | zero =>
        cases j with
        | zero => exact absurd rfl h
        | succ j => rfl
    | succ i =>
        cases j with
        | zero => rfl
        | succ j =>
            simp only [List.set, List.get?]
            exact ih i j (fun hc => h (by omega))

theorem demote_not_testing (st : Status) :
    statusIsTesting (demoteQueuedOrTesting st) = false := by
  cases st <;> rfl

theorem add_build_result_testing (pr : PullRequestState) (c u : String) (k : Conclusion) :
    statusIsTesting (add_build_result pr c u k).status = statusIsTesting pr.status := by
  cases hst : pr.status <;> simp [add_build_result, hst, statusIsTesting]

theorem lookupPull_modifyPull (t : PullTable) (n : Nat)
    (f : PullRequestState → PullRequestState) :
    lookupPull (modifyPull t n f) n = (lookupPull t n).map f := by
  induction t with
  | nil => rfl
  | cons e t ih =>
    by_cases he : (e.1 == n) = true
    · simp [lookupPull, modifyPull, he]
    · simp only [Bool.not_eq_true] at he
      simp only [lookupPull, modifyPull, List.map_cons, he]
      simpa [lookupPull, modifyPull, he] using ih

theorem countTesting_modifyPull_le (t : PullTable) (n : Nat)
    (f : PullRequestState → PullRequestState)
    (hf : ∀ pr, statusIsTesting (f pr).status = true → statusIsTesting pr.status = true) :
    countTesting (modifyPull t n f) ≤ countTesting t := by
  unfold countTesting modifyPull
  apply countP_map_mono
  intro e h
  by_cases he : (e.1 == n) = true
  · rw [if_pos he] at h
    exact hf e.2 h
  · rw [if_neg he] at h
    exact h

theorem countTesting_insertPull_le (t : PullTable) (n : Nat) (pr : PullRequestState)
    (hpr : statusIsTesting pr.status = false) :
    countTesting (insertPull t n pr) ≤ countTesting t := by
  unfold countTesting insertPull
  split
  · apply countP_map_mono
    intro e h
    by_cases he : (e.1 == n) = true
    · rw [if_pos he] at h
      simp only [hpr] at h
      exact absurd h (by decide)
    · rw [if_neg he] at h
      exact h
  · rw [List.countP_append]
    simp [List.countP_cons, hpr]

theorem countTesting_removePull_le (t : PullTable) (n : Nat) :
    countTesting (removePull t n) ≤ countTesting t := by
  unfold countTesting removePull
  exact countP_filter_le _ _ t

theorem selectLoop_countTesting (env : Env) (cfg : RepoConfig) (cands : List Nat) :
    ∀ pulls : PullTable, countTesting pulls = 0 →
      countTesting (selectLoop env cfg pulls cands).2.1 ≤ 1 := by
  induction cands with
  | nil =>
      intro pulls h
      simp [selectLoop, h]
  | cons i rest ih =>
      intro pulls h
      cases hg : pulls.get? i with
      | none =>
          simp only [selectLoop, hg]
          exact ih pulls h
      | some e =>
          cases hm : env.mergeOid e.1 with
          | some oid =>
              simp only [selectLoop, hg, hm]
              have hle := countP_set_le (fun x => statusIsTesting x.2.status) pulls i
                (setStatus e (Status.testing oid env.now []))
              unfold countTesting at *
              omega
          | none =>
              simp only [selectLoop, hg, hm]
              apply ih
              have hle := countP_set_of_neg (fun x => statusIsTesting x.2.status) pulls i
                (setStatus e Status.inReview) (by rfl)
              unfold countTesting at *
              omega

theorem selectNext_countTesting (env : Env) (cfg : RepoConfig) (pulls : PullTable)
    (h : countTesting pulls = 0) :
    countTesting (selectNext env cfg pulls).2.1 ≤ 1 := by
  unfold selectNext
  exact selectLoop_countTesting env cfg (candidatePositions cfg pulls) pulls h

theorem tickQueue_countTesting (env : Env) (cfg : RepoConfig) (mq : MergeQueue)
    (pulls : PullTable) (h : countTesting pulls ≤ 1) :
    countTesting (tickQueue env cfg mq pulls).2.1 ≤ 1 := by
  cases hfi : firstIdx (fun e => statusIsTesting e.2.status) pulls with
  | none =>
      simp only [tickQueue, hfi]
      exact selectNext_countTesting env cfg pulls (firstIdx_none_countP _ _ hfi)
  | some i =>
      obtain ⟨a, hget, hpa⟩ := firstIdx_some_get _ _ _ hfi
      cases hst : a.2.status with
      | inReview => rw [hst] at hpa; simp [statusIsTesting] at hpa
      | queued p => rw [hst] at hpa; simp [statusIsTesting] at hpa
      | canary oid results => rw [hst] at hpa; simp [statusIsTesting] at hpa
      | testing oid started results =>
          simp only [tickQueue, hfi, hget, hst]
          have helim := countP_set_elim (fun x => statusIsTesting x.2.status) pulls i
            (setStatus a Status.inReview) a hget hpa (by rfl)
          have herase := countP_eraseIdx_elim (fun x => statusIsTesting x.2.status) pulls i
            a hget hpa
          split
          · apply selectNext_countTesting
            unfold countTesting at *
            omega
          · split
            · apply selectNext_countTesting
              unfold countTesting at *
              omega
            · split
              · apply selectNext_countTesting
                unfold countTesting at *
                omega
              · exact h

theorem process_merge_queue_countTesting (env : Env) (s : EventProcessor)
    (h : countTesting s.pulls ≤ 1) :
    countTesting (process_merge_queue env s).1.pulls ≤ 1 := by
  unfold process_merge_queue
  exact tickQueue_countTesting env s.config s.merge_queue s.pulls h

theorem update_base_ref_testing (pr : PullRequestState) (br bs : String)
    (h : statusIsTesting (update_base_ref pr br bs).status = true) :
    statusIsTesting pr.status = true := by
  unfold update_base_ref at h
  split at h
  · exact h
  · simp [demote_not_testing] at h

theorem Cmd_execute_countTesting (c : Cmd) (env : Env) (cfg : RepoConfig)
    (sender : String) (n : Nat) (t : PullTable) (h : countTesting t ≤ 1) :
    countTesting (Cmd.execute c env cfg sender n t).1 ≤ 1 := by
  unfold Cmd.execute
  cases hlk : lookupPull t n with
  | none => exact h
  | some pr =>
    cases c with
    | approve =>
        dsimp only
        refine le_trans (countTesting_modifyPull_le t n _ ?_) h
        intro q hq
        split at hq
        · simp [statusIsTesting] at hq
        · exact hq
    | unapprove =>
        dsimp only
        refine le_trans (countTesting_modifyPull_le t n _ ?_) h
        intro q hq
        simp [demote_not_testing] at hq
    | retry =>
        dsimp only
        refine le_trans (countTesting_modifyPull_le t n _ ?_) h
        intro q hq
        split at hq
        · simp [statusIsTesting] at hq
        · exact hq
    | tryCanary =>
        cases hm : env.mergeOid n with
        | some oid =>
            dsimp only
            refine le_trans (countTesting_modifyPull_le t n _ ?_) h
            intro q hq
            simp [statusIsTesting] at hq
        | none =>
            dsimp only
            refine le_trans (countTesting_modifyPull_le t n _ ?_) h
            intro q hq
            simp [statusIsTesting] at hq
    | priority p =>
        dsimp only
        refine le_trans (countTesting_modifyPull_le t n _ ?_) h
        intro q hq
        exact hq
    | cancel =>
        dsimp only
        refine le_trans (countTesting_modifyPull_le t n _ ?_) h
        intro q hq
        cases hqs : q.status with
        | testing oid started results => simp [statusIsTesting]
        | canary oid results =>
            rw [hqs] at hq
            simp [statusIsTesting, hqs] at hq
        | inReview =>
            rw [hqs] at hq
            simp [statusIsTesting, hqs] at hq
        | queued p =>
            rw [hqs] at hq
            simp [statusIsTesting, hqs] at hq
    | ping => exact h
    | help => exact h

theorem process_comment_countTesting (env : Env) (s : EventProcessor) (user : String)
    (n : Nat) (comment : Option String) (node_id : String)
    (h : countTesting s.pulls ≤ 1) :
    countTesting (process_comment env s user n comment node_id).1.pulls ≤ 1 := by
  unfold process_comment
  cases hp : comment.bind env.parse with
  | none => exact h
  | some r =>
      cases r with
      | ok cmd =>
          dsimp only
          split
          · exact Cmd_execute_countTesting cmd env s.config user n s.pulls h
          · exact h
      | error e => exact h

theorem review_reconcile_countTesting (env : Env) (cfg : RepoConfig) (pulls : PullTable)
    (n : Nat) (rs : ReviewState) (h : countTesting pulls ≤ 1) :
    countTesting (review_reconcile env cfg pulls n rs).1 ≤ 1 := by
  unfold review_reconcile
  cases hlk : lookupPull pulls n with
  | none => exact h
  | some pr =>
      dsimp only
      split
      · dsimp only
        refine le_trans (countTesting_modifyPull_le pulls n _ ?_) h
        intro q hq
        exact hq
      · dsimp only
        refine le_trans (countTesting_modifyPull_le pulls n _ ?_) h
        intro q hq
        exact hq

theorem handle_pull_request_review_event_countTesting (env : Env) (s : EventProcessor)
    (e : PullRequestReviewEvent) (h : countTesting s.pulls ≤ 1) :
    countTesting (handle_pull_request_review_event env s e).1.pulls ≤ 1 := by
  unfold handle_pull_request_review_event
  have h1 := review_reconcile_countTesting env s.config s.pulls e.pull_request.number
    e.review.state h
  dsimp only
  split
  · exact process_comment_countTesting env _ _ _ _ _ h1
  · exact h1

theorem handle_pull_request_event_countTesting (s : EventProcessor)
    (event : PullRequestEvent) (h : countTesting s.pulls ≤ 1) :
    countTesting (handle_pull_request_event s event).1.pulls ≤ 1 := by
  unfold handle_pull_request_event
  cases event.action with
  | synchronize =>
      dsimp only
      refine le_trans (countTesting_modifyPull_le s.pulls _ _ ?_) h
      intro q hq
      simp [update_head, demote_not_testing] at hq
  | opened =>
      dsimp only
      exact le_trans
        (countTesting_insertPull_le s.pulls _ (from_pull_request event.pull_request) (by rfl)) h
  | reopened =>
      dsimp only
      exact le_trans
        (countTesting_insertPull_le s.pulls _ (from_pull_request event.pull_request) (by rfl)) h
  | closed =>
      dsimp only
      cases hlk : lookupPull s.pulls event.pull_request.number with
      | some pr => exact le_trans (countTesting_removePull_le s.pulls _) h
      | none => exact h
  | labeled =>
      dsimp only
      cases hl : event.label with
      | some label =>
          dsimp only
          refine le_trans (countTesting_modifyPull_le s.pulls _ _ ?_) h
          intro q hq
          exact hq
      | none => exact h
  | unlabeled =>
      dsimp only
      cases hl : event.label with
      | some label =>
          dsimp only
          refine le_trans (countTesting_modifyPull_le s.pulls _ _ ?_) h
          intro q hq
          exact hq
      | none => exact h
  | convertedToDraft =>
      dsimp only
      refine le_trans (countTesting_modifyPull_le s.pulls _ _ ?_) h
      intro q hq
      exact hq
  | readyForReview =>
      dsimp only
      refine le_trans (countTesting_modifyPull_le s.pulls _ _ ?_) h
      intro q hq
      exact hq
  | edited =>
      dsimp only
      refine le_trans (countTesting_modifyPull_le s.pulls _ _ ?_) h
      intro q hq
      split at hq
      all_goals split at hq
      all_goals split at hq
      all_goals (have hres := update_base_ref_testing _ _ _ hq; exact hres)
  | otherAction => exact h

theorem applyBuildResult_countTesting (t : PullTable) (oid cn url : String)
    (k : Conclusion) : countTesting (applyBuildResult t oid cn url k) = countTesting t := by
  unfold applyBuildResult
  cases hf : pull_from_merge_oid t oid with
  | none => rfl
  | some i =>
      dsimp only
      cases hg : t.get? i with
      | none => rfl
      | some e =>
          dsimp only
          exact countP_set_eq_of _ t i _ e hg (add_build_result_testing e.2 cn url k)

theorem handle_check_run_event_countTesting (s : EventProcessor) (event : CheckRunEvent)
    (h : countTesting s.pulls ≤ 1) :
    countTesting (handle_check_run_event s event).pulls ≤ 1 := by
  unfold handle_check_run_event
  split
  · dsimp only
    rw [applyBuildResult_countTesting]
    exact h
  · exact h

theorem handle_status_event_countTesting (s : EventProcessor) (event : StatusEvent)
    (h : countTesting s.pulls ≤ 1) :
    countTesting (handle_status_event s event).pulls ≤ 1 := by
  unfold handle_status_event
  split
  · exact h
  · dsimp only
    rw [applyBuildResult_countTesting]
    exact h

theorem syncTable_countTesting (prs : List PullRequest) :
    ∀ acc : PullTable, countTesting acc = 0 →
      countTesting (prs.foldl (fun t pr => insertPull t pr.number (from_pull_request pr)) acc)
        = 0 := by
  induction prs with
  | nil =>
      intro acc h
      simpa using h
  | cons pr prs ih =>
      intro acc h
      simp only [List.foldl]
      apply ih
      have := countTesting_insertPull_le acc pr.number (from_pull_request pr) (by rfl)
      omega

theorem handle_webhook_countTesting (env : Env) (s : EventProcessor) (event : Event)
    (delivery_id : String) (h : countTesting s.pulls ≤ 1) :
    countTesting (handle_webhook env s event delivery_id).1.pulls ≤ 1 := by
  unfold handle_webhook
  split
  · exact h
  · dsimp only
    apply process_merge_queue_countTesting
    unfold dispatch_event
    cases event with
    | pullRequest e => exact handle_pull_request_event_countTesting s e h
    | checkRun e => exact handle_check_run_event_countTesting s e h
    | status e => exact handle_status_event_countTesting s e h
    | issueComment e =>
        dsimp only
        split
        · exact process_comment_countTesting env s _ _ _ _ h
        · exact h
    | pullRequestReview e => exact handle_pull_request_review_event_countTesting env s e h
    | pullRequestReviewComment e =>
        dsimp only
        split
        · exact process_comment_countTesting env s _ _ _ _ h
        · exact h
    | unsupported r => exact h

/-- Whether an effect is the merge-queue tick marker. -/
def Effect.isTick : Effect → Bool
  | .tick => true
  | _ => false

/-- Number of `process_merge_queue` invocations recorded in an effect trace. -/
def countTick (fx : List Effect) : Nat :=
  fx.countP Effect.isTick

theorem countTick_append (a b : List Effect) :
    countTick (a ++ b) = countTick a + countTick b := by
  unfold countTick
  exact List.countP_append _ a b

theorem countTick_execute (c : Cmd) (env : Env) (cfg : RepoConfig) (sender : String)
    (n : Nat) (t : PullTable) : countTick (Cmd.execute c env cfg sender n t).2 = 0 := by
  unfold Cmd.execute
  cases hlk : lookupPull t n with
  | none => simp [countTick, Effect.isTick]
  | some pr =>
      cases c with
      | tryCanary =>
          cases hm : env.mergeOid n <;> simp [countTick, Effect.isTick]
      | approve => simp [countTick]
      | unapprove => simp [countTick]
      | retry => simp [countTick]
      | priority p => simp [countTick]
      | cancel => simp [countTick]
      | ping => simp [countTick, Effect.isTick]
      | help => simp [countTick, Effect.isTick]

theorem countTick_process_comment (env : Env) (s : EventProcessor) (user : String)
    (n : Nat) (comment : Option String) (node_id : String) :
    countTick (process_comment env s user n comment node_id).2 = 0 := by
  unfold process_comment
  cases hp : comment.bind env.parse with
  | none => rfl
  | some r =>
      cases r with
      | ok cmd =>
          dsimp only
          split
          · have := countTick_execute cmd env s.config user n s.pulls
            simp [countTick, Effect.isTick, List.countP_cons] at this ⊢
            exact this
          · simp [countTick, Effect.isTick]
      | error e => simp [countTick, Effect.isTick]

theorem countTick_handle_pull_request_event (s : EventProcessor)
    (event : PullRequestEvent) :
    countTick (handle_pull_request_event s event).2 = 0 := by
  unfold handle_pull_request_event
  cases event.action with
  | synchronize => rfl
  | opened =>
      dsimp only
      split <;> cases s.project_board <;> simp [countTick, Effect.isTick]
  | reopened =>
      dsimp only
      split <;> cases s.project_board <;> simp [countTick, Effect.isTick]
  | closed =>
      dsimp only
      cases hlk : lookupPull s.pulls event.pull_request.number with
      | some pr =>
          dsimp only
          cases s.project_board <;> simp [countTick, Effect.isTick]
      | none => rfl
  | labeled => cases event.label <;> rfl
  | unlabeled => cases event.label <;> rfl
  | convertedToDraft => rfl
  | readyForReview => rfl
  | edited => rfl
  | otherAction => rfl

theorem countTick_review_reconcile (env : Env) (cfg : RepoConfig) (pulls : PullTable)
    (n : Nat) (rs : ReviewState) :
    countTick (review_reconcile env cfg pulls n rs).2 = 0 := by
  unfold review_reconcile
  cases hlk : lookupPull pulls n with
  | none => rfl
  | some pr =>
      dsimp only
      split <;> simp [countTick, Effect.isTick]

theorem countTick_handle_pull_request_review_event (env : Env) (s : EventProcessor)
    (e : PullRequestReviewEvent) :
    countTick (handle_pull_request_review_event env s e).2 = 0 := by
  unfold handle_pull_request_review_event
  dsimp only
  split
  · rw [countTick_append, countTick_review_reconcile, countTick_process_comment]
  · rw [countTick_append, countTick_review_reconcile]
    rfl

theorem countTick_selectLoop (env : Env) (cfg : RepoConfig) (cands : List Nat) :
    ∀ pulls : PullTable, countTick (selectLoop env cfg pulls cands).2.2 = 0 := by
  induction cands with
  | nil => intro pulls; rfl
  | cons i rest ih =>
      intro pulls
      cases hg : pulls.get? i with
      | none =>
          simp only [selectLoop, hg]
          exact ih pulls
      | some e =>
          cases hm : env.mergeOid e.1 with
          | some oid =>
              simp only [selectLoop, hg, hm]
              rfl
          | none =>
              simp only [selectLoop, hg, hm]
              have := ih (pulls.set i (setStatus e Status.inReview))
              simp [countTick, Effect.isTick, List.countP_cons] at this ⊢
              exact this

theorem countTick_selectNext (env : Env) (cfg : RepoConfig) (pulls : PullTable) :
    countTick (selectNext env cfg pulls).2.2 = 0 := by
  unfold selectNext
  exact countTick_selectLoop env cfg (candidatePositions cfg pulls) pulls

theorem countTick_tickQueue (env : Env) (cfg : RepoConfig) (mq : MergeQueue)
    (pulls : PullTable) : countTick (tickQueue env cfg mq pulls).2.2 = 0 := by
  unfold tickQueue
  cases hfi : firstIdx (fun e => statusIsTesting e.2.status) pulls with
  | none => exact countTick_selectNext env cfg pulls
  | some i =>
      dsimp only
      cases hg : pulls.get? i with
      | none => rfl
      | some e =>
          dsimp only
          cases hst : e.2.status with
          | inReview => rfl
          | queued p => rfl
          | canary oid results => rfl
          | testing oid started results =>
              dsimp only
              split
              · have := countTick_selectNext env cfg (pulls.set i (setStatus e Status.inReview))
                simp [countTick, Effect.isTick, List.countP_cons] at this ⊢
                exact this
              · split
                · have := countTick_selectNext env cfg (pulls.eraseIdx i)
                  simp [countTick, Effect.isTick, List.countP_cons] at this ⊢
                  exact this
                · split
                  · have := countTick_selectNext env cfg
                      (pulls.set i (setStatus e Status.inReview))
                    simp [countTick, Effect.isTick, List.countP_cons] at this ⊢
                    exact this
                  · rfl

theorem countTick_process_merge_queue (env : Env) (s : EventProcessor) :
    countTick (process_merge_queue env s).2 = 0 := by
  unfold process_merge_queue
  exact countTick_tickQueue env s.config s.merge_queue s.pulls

theorem countTick_labelFoldr (env : Env) (cfg : RepoConfig) (l : List String) :
    countTick (l.foldr (fun lab fx =>
      .getLabel cfg.owner cfg.name lab ::
        (if env.labelExists lab then fx
         else .createLabel cfg.owner cfg.name lab :: fx)) []) = 0 := by
  induction l with
  | nil => rfl
  | cons lab rest ih =>
      simp only [List.foldr]
      split <;> simp [countTick, Effect.isTick, List.countP_cons] at ih ⊢ <;> exact ih

theorem countTick_synchronize (env : Env) (s : EventProcessor) (s1 : EventProcessor)
    (fx : List Effect) (h : synchronize env s = .ok (s1, fx)) : countTick fx = 0 := by
  unfold synchronize at h
  cases ho : env.openPullsResult with
  | error e => rw [ho] at h; exact absurd h (by simp)
  | ok prs =>
      rw [ho] at h
      cases h
      have := countTick_labelFoldr env s.config s.config.labels.all
      simp [countTick, Effect.isTick, List.countP_cons, labelEffects] at this ⊢
      exact this

theorem countTick_cons (e : Effect) (fx : List Effect) :
    countTick (e :: fx) = countTick fx + (if Effect.isTick e then 1 else 0) := by
  unfold countTick
  exact List.countP_cons _ e fx

theorem countTick_dispatch_event (env : Env) (s : EventProcessor) (event : Event) :
    countTick (dispatch_event env s event).2 = 0 := by
  unfold dispatch_event
  cases event with
  | pullRequest e => exact countTick_handle_pull_request_event s e
  | checkRun e => rfl
  | status e => rfl
  | issueComment e =>
      dsimp only
      split
      · exact countTick_process_comment env s _ _ _ _
      · rfl
  | pullRequestReview e => exact countTick_handle_pull_request_review_event env s e
  | pullRequestReviewComment e =>
      dsimp only
      split
      · exact countTick_process_comment env s _ _ _ _
      · rfl
  | unsupported r => rfl

theorem countTick_handle_webhook (env : Env) (s : EventProcessor) (event : Event)
    (delivery_id : String) :
    countTick (handle_webhook env s event delivery_id).2 =
      (if repoMatches s.config event then 1 else 0) := by
  unfold handle_webhook
  by_cases hrm : repoMatches s.config event = true
  · simp only [hrm, Bool.not_true, Bool.false_eq_true, if_false, if_pos]
    rw [countTick_append, countTick_dispatch_event, countTick_cons,
      countTick_process_merge_queue]
    rfl
  · simp only [Bool.not_eq_true] at hrm
    simp [hrm, countTick]

/-- A concrete repository used to evaluate the embedding on closed inputs. -/
def sampleRepo : Repo := { owner := "octo", name := "demo" }

/-- A concrete label configuration with all defaults. -/
def sampleLabels : Labels := { squash := none, high_priority := none, low_priority := none }

/-- A concrete repository configuration with one required check `ci`. -/
def sampleConfig : RepoConfig :=
  { repo := sampleRepo
    require_review := true
    maintainer_mode := false
    checks := [("ci", { name := "ci" })]
    status := []
    timeout_seconds := none
    labels := sampleLabels }

/-- A concrete project board. -/
def sampleBoard : ProjectBoard := { board_id := "board" }

/-- A concrete environment: no review approvals, no open PRs, no mergeable
candidates, no parsed commands, labels already exist. -/
def sampleEnv : Env :=
  { reviewDecision := fun _ => false
    openPullsResult := .ok []
    mergeOid := fun _ => none
    now := 0
    parse := fun _ => none
    authorized := fun _ _ _ => false
    labelExists := fun _ => true
    boardInit := sampleBoard }

/-- A concrete actor state with an empty PR Table. -/
def sampleState : EventProcessor :=
  { config := sampleConfig
    merge_queue := { current := none }
    project_board := none
    pulls := [] }

/-- The state `sampleState` reaches after a successful `Synchronize` request. -/
def sampleSyncState : EventProcessor :=
  { config := sampleConfig
    merge_queue := MergeQueue.reset
    project_board := some sampleBoard
    pulls := [] }

/-- The effect trace of that `Synchronize` request. -/
def sampleSyncEffects : List Effect :=
  [.openPulls "octo" "demo",
   .getLabel "octo" "demo" "bors-squash",
   .getLabel "octo" "demo" "bors-high-priority",
   .getLabel "octo" "demo" "bors-low-priority"]

/-- C1, counterexample: a `Synchronize` request consumed from the Inbox invokes
`process_merge_queue` zero times, not exactly once as claimed — the
`Synchronize` arm of `handle_request` calls `synchronize` only, and the single
tick call site sits at the end of `handle_webhook`. -/
theorem c1_counterexample :
    handle_request sampleEnv sampleState Request.synchronize =
      .ok (sampleSyncState, sampleSyncEffects)
    ∧ countTick sampleSyncEffects = 0 :=
  ⟨rfl, rfl⟩

/-- C1 (amended): a Webhook request for the configured repository invokes
`process_merge_queue` exactly once after its handling; a Webhook for another
repository, a `Synchronize` request, and a `GetStateSnapshot` request invoke it
zero times. -/
theorem c1_merge_queue_tick :
    ∀ (env : Env) (s : EventProcessor) (event : Event) (delivery_id : String)
      (s2 s3 : EventProcessor) (fx2 fx3 : List Effect),
    (handle_request env s (.webhook event delivery_id) =
        .ok (handle_webhook env s event delivery_id))
    ∧ (countTick (handle_webhook env s event delivery_id).2 =
        (if repoMatches s.config event then 1 else 0))
    ∧ (handle_request env s .synchronize = .ok (s2, fx2) → countTick fx2 = 0)
    ∧ (handle_request env s .getState = .ok (s3, fx3) → countTick fx3 = 0) := by
  intro env s event delivery_id s2 s3 fx2 fx3
  refine ⟨rfl, countTick_handle_webhook env s event delivery_id, ?_, ?_⟩
  · intro h
    exact countTick_synchronize env s s2 fx2 h
  · intro h
    simp only [handle_request, Except.ok.injEq] at h
    rw [show fx3 = [] from (Prod.mk.injEq _ _ _ _ ▸ h).2.symm]
    rfl

/-- C1 witness: the amended statement evaluated at the sample inputs. -/
theorem c1_witness :
    countTick (handle_webhook sampleEnv sampleState
        (Event.unsupported (some sampleRepo)) "d1").2 =
      (if repoMatches sampleState.config (Event.unsupported (some sampleRepo)) then 1 else 0)
    ∧ countTick sampleSyncEffects = 0 :=
  ⟨(c1_merge_queue_tick sampleEnv sampleState (Event.unsupported (some sampleRepo)) "d1"
      sampleSyncState sampleState sampleSyncEffects []).2.1,
   (c1_merge_queue_tick sampleEnv sampleState (Event.unsupported (some sampleRepo)) "d1"
      sampleSyncState sampleState sampleSyncEffects []).2.2.1 rfl⟩

/-- C3: after every processed request — webhook, snapshot or synchronize — at
most one PR in the PR Table has status `Testing` (the merge-queue tick is
modelled from the spec, §4.3). -/
theorem c3_at_most_one_testing :
    ∀ (env : Env) (s : EventProcessor) (req : Request),
    countTesting s.pulls ≤ 1 →
    countTesting (handle_request_state env s req).pulls ≤ 1 := by
  intro env s req h
  cases req with
  | webhook event delivery_id =>
      simp only [handle_request_state, handle_request]
      exact handle_webhook_countTesting env s event delivery_id h
  | getState => exact h
  | synchronize =>
      simp only [handle_request_state, handle_request]
      unfold synchronize
      cases ho : env.openPullsResult with
      | error e => exact h
      | ok prs =>
          dsimp only
          have h0 := syncTable_countTesting prs [] rfl
          omega

/-- C3 witness: the invariant holds through a concrete snapshot request. -/
theorem c3_witness :
    countTesting sampleState.pulls ≤ 1
    ∧ countTesting (handle_request_state sampleEnv sampleState Request.getState).pulls ≤ 1 :=
  ⟨by decide, c3_at_most_one_testing sampleEnv sampleState Request.getState (by decide)⟩

/-- C7: a webhook whose repository coordinates do not match the configured
`(owner, name)` is dropped: the state (PR Table and Merge Queue included) is
returned unchanged and the effect trace is empty — no outbound forge call and
no merge-queue tick. -/
theorem c7_foreign_repo_dropped :
    ∀ (env : Env) (s : EventProcessor) (event : Event) (delivery_id : String),
    repoMatches s.config event = false →
    handle_webhook env s event delivery_id = (s, []) := by
  intro env s event delivery_id h
  unfold handle_webhook
  simp [h]

/-- C7 witness: a webhook for repository `x/y` reaching the `octo/demo` actor. -/
theorem c7_witness :
    handle_webhook sampleEnv sampleState
      (Event.unsupported (some { owner := "x", name := "y" })) "d2" = (sampleState, []) :=
  c7_foreign_repo_dropped sampleEnv sampleState
    (Event.unsupported (some { owner := "x", name := "y" })) "d2" (by decide)

/-- C8: the per-PR test timeout is exactly 7200 seconds when `timeout_seconds`
is absent from the configuration, and exactly the configured value when present. -/
theorem c8_timeout_default :
    ∀ cfg : RepoConfig,
    (cfg.timeout_seconds = none → cfg.timeout = 7200)
    ∧ (∀ n, cfg.timeout_seconds = some n → cfg.timeout = n) := by
  intro cfg
  constructor
  · intro h
    simp [RepoConfig.timeout, h]
  · intro n h
    simp [RepoConfig.timeout, h]

/-- C8 witness: the default and an explicit 42-second timeout. -/
theorem c8_witness :
    sampleConfig.timeout = 7200
    ∧ ({ sampleConfig with timeout_seconds := some 42 } : RepoConfig).timeout = 42 :=
  ⟨(c8_timeout_default sampleConfig).1 rfl,
   (c8_timeout_default { sampleConfig with timeout_seconds := some 42 }).2 42 rfl⟩

/-- C9: the required check names are exactly the union of the `name` fields of
the configured checks and the `context` fields of the configured statuses. -/
theorem c9_required_checks :
    ∀ (cfg : RepoConfig) (x : String),
    x ∈ cfg.checksList ↔
      ((∃ kv ∈ cfg.checks, kv.2.name = x) ∨ (∃ kv ∈ cfg.status, kv.2.context = x)) := by
  intro cfg x
  simp [RepoConfig.checksList, List.mem_append, List.mem_map]

/-- Whether an effect is a `get_review_decision` forge query. -/
def Effect.isReviewQuery : Effect → Bool
  | .getReviewDecision _ _ _ => true
  | _ => false

/-- Number of review-decision queries in an effect trace. -/
def countQueries (fx : List Effect) : Nat :=
  fx.countP Effect.isReviewQuery

/-- C2: on a review event for a PR present in the table, the review decision is
queried; when the cached approval and the first answer are both true and the
review is Dismissed or ChangesRequested, or both false and the review is
Approved, the actor sleeps 300 ms, queries exactly once more, and stores the
second answer in `pr.approved`; otherwise the first answer is stored after a
single query and no sleep. -/
theorem c2_race_reconciliation :
    ∀ (env : Env) (cfg : RepoConfig) (pulls : PullTable) (n : Nat) (rs : ReviewState)
      (pr : PullRequestState),
    lookupPull pulls n = some pr →
    ((raceCheck pr.approved (env.reviewDecision 0) rs = true →
        lookupPull (review_reconcile env cfg pulls n rs).1 n =
          some { pr with approved := env.reviewDecision 1 }
        ∧ countQueries (review_reconcile env cfg pulls n rs).2 = 2
        ∧ Effect.sleepMs 300 ∈ (review_reconcile env cfg pulls n rs).2)
     ∧ (raceCheck pr.approved (env.reviewDecision 0) rs = false →
        lookupPull (review_reconcile env cfg pulls n rs).1 n =
          some { pr with approved := env.reviewDecision 0 }
        ∧ countQueries (review_reconcile env cfg pulls n rs).2 = 1
        ∧ Effect.sleepMs 300 ∉ (review_reconcile env cfg pulls n rs).2)) := by
  intro env cfg pulls n rs pr hlk
  by_cases hr : raceCheck pr.approved (env.reviewDecision 0) rs = true
  · refine ⟨fun _ => ⟨?_, ?_, ?_⟩, fun hf => absurd hr (by simp [hf])⟩
    · unfold review_reconcile
      rw [hlk]
      dsimp only
      rw [if_pos hr, lookupPull_modifyPull, hlk]
      rfl
    · unfold review_reconcile
      rw [hlk]
      dsimp only
      rw [if_pos hr]
      rfl
    · unfold review_reconcile
      rw [hlk]
      dsimp only
      rw [if_pos hr]
      simp
  · refine ⟨fun ht => absurd ht hr, fun _ => ⟨?_, ?_, ?_⟩⟩
    · unfold review_reconcile
      rw [hlk]
      dsimp only
      rw [if_neg hr, lookupPull_modifyPull, hlk]
      rfl
    · unfold review_reconcile
      rw [hlk]
      dsimp only
      rw [if_neg hr]
      rfl
    · unfold review_reconcile
      rw [hlk]
      dsimp only
      rw [if_neg hr]
      simp

/-- A concrete pull-request payload, PR number 7. -/
def samplePayloadPr : PullRequest :=
  { number := 7
    title := "Add feature"
    body := none
    author := "alice"
    head := { git_ref := "feature", sha := "AAAA", repo := none }
    base := { git_ref := "main", sha := "BBBB", repo := none }
    merged := none
    maintainer_can_modify := none
    draft := none }

/-- The table record of PR 7, already approved. -/
def samplePull : PullRequestState :=
  { from_pull_request samplePayloadPr with approved := true }

/-- An environment whose first review query answers true and whose second
answers false, exhibiting the race pattern of spec seed scenario 5. -/
def sampleEnvRace : Env :=
  { sampleEnv with reviewDecision := fun i => i == 0 }

/-- C2 witness: cached approval true, review Dismissed, first query true — the
second query is adopted. -/
theorem c2_witness :
    lookupPull (review_reconcile sampleEnvRace sampleConfig [(7, samplePull)] 7
        ReviewState.dismissed).1 7 =
      some { samplePull with approved := sampleEnvRace.reviewDecision 1 }
    ∧ countQueries (review_reconcile sampleEnvRace sampleConfig [(7, samplePull)] 7
        ReviewState.dismissed).2 = 2
    ∧ Effect.sleepMs 300 ∈ (review_reconcile sampleEnvRace sampleConfig [(7, samplePull)] 7
        ReviewState.dismissed).2 :=
  (c2_race_reconciliation sampleEnvRace sampleConfig [(7, samplePull)] 7
    ReviewState.dismissed samplePull rfl).1 (by decide)

/-- C4: a comment parsing to a valid command gets the reaction emoji as the
first effect, before any execution effect; an unauthorized command is not
executed and posts no comment (the trace is the reaction alone and the state is
unchanged); a malformed command posts the help reply and is not executed. -/
theorem c4_command_acknowledgement :
    ∀ (env : Env) (s : EventProcessor) (user : String) (n : Nat)
      (comment : Option String) (node_id : String) (c : Cmd),
    (comment.bind env.parse = some (.ok c) →
      ((process_comment env s user n comment node_id).2.head? =
          some (.addReaction node_id .rocket)
       ∧ (env.authorized c user n = true →
           Effect.executeCmd c user n ∈ (process_comment env s user n comment node_id).2.tail)
       ∧ (env.authorized c user n = false →
           process_comment env s user n comment node_id = (s, [.addReaction node_id .rocket]))))
    ∧ (comment.bind env.parse = some (.error ()) →
        process_comment env s user n comment node_id =
          (s, [.createComment s.config.owner s.config.name n invalidCommandMsg])) := by
  intro env s user n comment node_id c
  constructor
  · intro hp
    unfold process_comment
    rw [hp]
    dsimp only
    by_cases ha : env.authorized c user n = true
    · rw [if_pos ha]
      refine ⟨rfl, fun _ => ?_, fun hf => absurd ha (by simp [hf])⟩
      simp
    · rw [if_neg ha]
      exact ⟨rfl, fun ht => absurd ht ha, fun _ => rfl⟩
  · intro hp
    unfold process_comment
    rw [hp]

/-- An environment whose parser yields the valid `ping` command. -/
def sampleEnvCmd : Env :=
  { sampleEnv with parse := fun _ => some (.ok Cmd.ping) }

/-- An environment whose parser yields a malformed command. -/
def sampleEnvBadCmd : Env :=
  { sampleEnv with parse := fun _ => some (.error ()) }

/-- C4 witness: an unauthorized valid command only gets the reaction; a
malformed command gets the help reply. -/
theorem c4_witness :
    process_comment sampleEnvCmd sampleState "mallory" 7 (some "bors ping") "node1" =
      (sampleState, [.addReaction "node1" .rocket])
    ∧ process_comment sampleEnvBadCmd sampleState "alice" 7 (some "bors frobnicate") "node2" =
      (sampleState,
       [.createComment sampleState.config.owner sampleState.config.name 7 invalidCommandMsg]) :=
  ⟨((c4_command_acknowledgement sampleEnvCmd sampleState "mallory" 7 (some "bors ping")
      "node1" Cmd.ping).1 rfl).2.2 rfl,
   (c4_command_acknowledgement sampleEnvBadCmd sampleState "alice" 7 (some "bors frobnicate")
      "node2" Cmd.ping).2 rfl⟩

/-- C5: a failure of the initial synchronization terminates the actor (`start`
yields `none`); an error while handling a single request makes the loop move on
to the remaining requests with the state unchanged; a successful initial
synchronization starts the loop. -/
theorem c5_fatal_and_resilient :
    ∀ (envInit : Env) (envs : Nat → Env) (s : EventProcessor) (reqs : List Request)
      (req : Request) (e : Unit),
    (envInit.openPullsResult = .error () → start envInit envs s reqs = none)
    ∧ (handle_request (envs 0) s req = .error e →
        runLoop envs s (req :: reqs) = runLoop (fun i => envs (i + 1)) s reqs)
    ∧ (∀ prs, envInit.openPullsResult = .ok prs →
        (start envInit envs s reqs).isSome = true) := by
  intro envInit envs s reqs req e
  refine ⟨?_, ?_, ?_⟩
  · intro h
    unfold start synchronize
    rw [h]
  · intro h
    simp only [runLoop]
    rw [h]
  · intro prs h
    unfold start synchronize
    rw [h]
    rfl

/-- An environment whose `open_pulls` call fails. -/
def sampleEnvFail : Env :=
  { sampleEnv with openPullsResult := .error () }

/-- C5 witness: fatal startup under the failing environment, and a failing
in-loop `Synchronize` request that is skipped while the loop continues. -/
theorem c5_witness :
    start sampleEnvFail (fun _ => sampleEnv) sampleState [] = none
    ∧ runLoop (fun _ => sampleEnvFail) sampleState [Request.synchronize] =
        runLoop (fun i => (fun _ => sampleEnvFail) (i + 1)) sampleState [] :=
  ⟨(c5_fatal_and_resilient sampleEnvFail (fun _ => sampleEnv) sampleState []
      Request.getState ()).1 rfl,
   (c5_fatal_and_resilient sampleEnvFail (fun _ => sampleEnvFail) sampleState []
      Request.synchronize ()).2.1 rfl⟩

theorem applyBuildResult_get_ne (t : PullTable) (oid cn url : String) (k : Conclusion)
    (j : Nat) (en : Nat × PullRequestState) (hget : t.get? j = some en)
    (hno : matchesOid en.2 oid = false) :
    (applyBuildResult t oid cn url k).get? j = some en := by
  unfold applyBuildResult
  cases hf : pull_from_merge_oid t oid with
  | none => exact hget
  | some i =>
      dsimp only
      cases hg : t.get? i with
      | none => exact hget
      | some a =>
          dsimp only
          obtain ⟨b, hgb, hmb⟩ := firstIdx_some_get _ _ _ hf
          by_cases hij : i = j
          · subst hij
            rw [hg] at hget hgb
            cases hget
            cases hgb
            rw [hmb] at hno
            exact absurd hno (by decide)
          · rw [get?_set_of_ne _ i j _ hij]
            exact hget

theorem applyBuildResult_get_found (t : PullTable) (oid cn url : String) (k : Conclusion)
    (i : Nat) (en : Nat × PullRequestState)
    (hf : pull_from_merge_oid t oid = some i) (hget : t.get? i = some en) :
    (applyBuildResult t oid cn url k).get? i =
      some (en.1, add_build_result en.2 cn url k) := by
  unfold applyBuildResult
  rw [hf]
  dsimp only
  rw [hget]
  dsimp only
  exact get?_set_self t i _ en hget

/-- C6: build results are attached only through the merge-oid match.  A check
run that is not `completed`/`completed` with a conclusion is ignored, a pending
status is ignored; a status maps success to a success conclusion and failure or
error to a failure conclusion; every table entry whose `Testing`/`Canary` merge
oid does not equal the event's head sha is left unchanged; and the located PR
gets exactly the event's `BuildResult` appended. -/
theorem c6_build_result_routing :
    ∀ (s : EventProcessor) (e : CheckRunEvent) (ev : StatusEvent),
    (¬(e.action = .completed ∧ e.check_run.status = .completed
        ∧ e.check_run.conclusion.isSome = true) →
      handle_check_run_event s e = s)
    ∧ (ev.state = .pending → handle_status_event s ev = s)
    ∧ (statusConclusion .success = some .success ∧ statusConclusion .failure = some .failure
        ∧ statusConclusion .error = some .failure ∧ statusConclusion .pending = none)
    ∧ (∀ j en, s.pulls.get? j = some en →
        matchesOid en.2 e.check_run.head_sha = false →
        (handle_check_run_event s e).pulls.get? j = some en)
    ∧ (∀ j en, s.pulls.get? j = some en →
        matchesOid en.2 ev.sha = false →
        (handle_status_event s ev).pulls.get? j = some en)
    ∧ (∀ i en k, pull_from_merge_oid s.pulls e.check_run.head_sha = some i →
        s.pulls.get? i = some en →
        e.action = .completed → e.check_run.status = .completed →
        e.check_run.conclusion = some k →
        (handle_check_run_event s e).pulls.get? i =
          some (en.1, add_build_result en.2 e.check_run.name e.check_run.details_url k))
    ∧ (∀ i en k, pull_from_merge_oid s.pulls ev.sha = some i →
        s.pulls.get? i = some en →
        statusConclusion ev.state = some k →
        (handle_status_event s ev).pulls.get? i =
          some (en.1, add_build_result en.2 ev.context (ev.target_url.getD "") k)) := by
  intro s e ev
  refine ⟨?_, ?_, ⟨rfl, rfl, rfl, rfl⟩, ?_, ?_, ?_, ?_⟩
  · intro h
    unfold handle_check_run_event
    cases ha : e.action <;> cases hcs : e.check_run.status <;>
      cases hc : e.check_run.conclusion <;>
      first
        | rfl
        | exact absurd ⟨ha, hcs, by rw [hc]; rfl⟩ h
  · intro h
    unfold handle_status_event
    rw [h]
    rfl
  · intro j en hget hno
    unfold handle_check_run_event
    cases ha : e.action <;> cases hcs : e.check_run.status <;>
      cases hc : e.check_run.conclusion <;>
      first
        | exact hget
        | exact applyBuildResult_get_ne s.pulls _ _ _ _ j en hget hno
  · intro j en hget hno
    unfold handle_status_event
    cases hst : ev.state <;>
      first
        | exact hget
        | exact applyBuildResult_get_ne s.pulls _ _ _ _ j en hget hno
  · intro i en k hf hget ha hcs hc
    unfold handle_check_run_event
    rw [ha, hcs, hc]
    dsimp only
    exact applyBuildResult_get_found s.pulls _ _ _ k i en hf hget
  · intro i en k hf hget hk
    unfold handle_status_event
    rw [hk]
    dsimp only
    exact applyBuildResult_get_found s.pulls _ _ _ k i en hf hget

/-- The actor state holding approved PR 7 under test with merge oid `M1`. -/
def sampleTestingPull : PullRequestState :=
  { samplePull with status := .testing "M1" 0 [] }

/-- Actor state with PR 7 testing and PR 9 in review. -/
def sampleTestingState : EventProcessor :=
  { sampleState with pulls := [(7, sampleTestingPull), (9, from_pull_request
      { samplePayloadPr with number := 9 })] }

/-- A completed check-run event on merge oid `M1`. -/
def sampleCheckEvent : CheckRunEvent :=
  { action := .completed
    check_run := { name := "ci", head_sha := "M1", details_url := "https://ci/1",
                   status := .completed, conclusion := some .failure }
    repository := sampleRepo }

/-- A pending status event. -/
def samplePendingStatus : StatusEvent :=
  { state := .pending, sha := "M1", context := "ci", target_url := none,
    repository := sampleRepo }

/-- C6 witness: the pending status is ignored and the failing check run lands
exactly on PR 7, leaving PR 9 untouched. -/
theorem c6_witness :
    handle_status_event sampleTestingState samplePendingStatus = sampleTestingState
    ∧ (handle_check_run_event sampleTestingState sampleCheckEvent).pulls.get? 0 =
        some (7, add_build_result sampleTestingPull "ci" "https://ci/1" .failure)
    ∧ (handle_check_run_event sampleTestingState sampleCheckEvent).pulls.get? 1 =
        sampleTestingState.pulls.get? 1 :=
  ⟨(c6_build_result_routing sampleTestingState sampleCheckEvent samplePendingStatus).2.1 rfl,
   (c6_build_result_routing sampleTestingState sampleCheckEvent samplePendingStatus).2.2.2.2.2.1
     0 (7, sampleTestingPull) .failure rfl rfl rfl rfl rfl,
   (c6_build_result_routing sampleTestingState sampleCheckEvent samplePendingStatus).2.2.2.1
     1 (9, from_pull_request { samplePayloadPr with number := 9 }) rfl (by decide)⟩

/-- C10: the `closed` arm of the pull-request handler removes the PR from the
table (when present) and deletes its project-board card, but leaves the Merge
Queue — in particular its in-flight reference — untouched. -/
theorem c10_closed_leaves_queue :
    ∀ (s : EventProcessor) (event : PullRequestEvent),
    event.action = .closed →
    ((handle_pull_request_event s event).1.merge_queue = s.merge_queue
     ∧ (∀ pr, lookupPull s.pulls event.pull_request.number = some pr →
         (handle_pull_request_event s event).1.pulls =
           removePull s.pulls event.pull_request.number
         ∧ (∀ b, s.project_board = some b →
             (handle_pull_request_event s event).2 =
               [.deleteCard event.pull_request.number])
         ∧ (s.project_board = none → (handle_pull_request_event s event).2 = []))
     ∧ (lookupPull s.pulls event.pull_request.number = none →
         handle_pull_request_event s event = (s, []))) := by
  intro s event h
  unfold handle_pull_request_event
  rw [h]
  dsimp only
  cases hlk : lookupPull s.pulls event.pull_request.number with
  | some pr =>
      dsimp only
      refine ⟨?_, ?_, ?_⟩
      · cases s.project_board <;> rfl
      · intro pr2 hp2
        cases hbb : s.project_board with
        | some x =>
            refine ⟨rfl, fun b hb => rfl, fun hn => ?_⟩
            simp at hn
        | none =>
            refine ⟨rfl, fun b hb => ?_, fun _ => rfl⟩
            simp at hb
      · intro hn
        simp at hn
  | none =>
      refine ⟨rfl, ?_, fun _ => rfl⟩
      intro pr2 hp2
      simp at hp2

/-- Actor state with PR 7 under test and a project board. -/
def sampleTestingBoardState : EventProcessor :=
  { sampleTestingState with
      project_board := some sampleBoard
      merge_queue := { current := some (7, 7200) } }

/-- The `closed` event for PR 7. -/
def sampleClosedEvent : PullRequestEvent :=
  { action := .closed
    pull_request := samplePayloadPr
    label := none
    repository := sampleRepo }

/-- C10 witness: closing the currently-testing PR 7 removes it from the table
and deletes its card, while the in-flight reference `(7, 7200)` survives. -/
theorem c10_witness :
    (handle_pull_request_event sampleTestingBoardState sampleClosedEvent).1.merge_queue =
      sampleTestingBoardState.merge_queue
    ∧ (handle_pull_request_event sampleTestingBoardState sampleClosedEvent).1.pulls =
        removePull sampleTestingBoardState.pulls 7
    ∧ (handle_pull_request_event sampleTestingBoardState sampleClosedEvent).2 =
        [.deleteCard 7] :=
  ⟨(c10_closed_leaves_queue sampleTestingBoardState sampleClosedEvent rfl).1,
   ((c10_closed_leaves_queue sampleTestingBoardState sampleClosedEvent rfl).2.1
      sampleTestingPull rfl).1,
   ((c10_closed_leaves_queue sampleTestingBoardState sampleClosedEvent rfl).2.1
      sampleTestingPull rfl).2.1 sampleBoard rfl⟩
